import Mathlib

/-!
Verification development for the opyapi JSON Schema validation engine.

The definitions below are a shallow embedding of the Python sources:
  - opyapi/validators/__init__.py        (enum, const, boolean, null)
  - opyapi/validators/number_validators.py
  - opyapi/validators/string_validators.py
  - opyapi/validators/array_validators.py
  - opyapi/validators/object_validators.py (signature only, see below)
  - opyapi/validators/combining_validators.py
  - opyapi/schema_validator.py           (the compiler, build_validator_for)
  - opyapi/json_schema.py                (JsonUri, JsonReference, JsonSchema)

Machine integers and floats: the claims under study use numbers only as
discrete, exactly representable literals (1, 1.0, 5, ...), so Python
ints are embedded as Int and Python floats as rationals; no claim
depends on binary rounding.
-/

set_option linter.unusedVariables false

namespace Opyapi

/-- A JSON value as the Python runtime sees it: None, bool, int, float,
str, list, dict (insertion-ordered, string keys).  Python keeps bool,
int and float as distinct runtime types, which the validators inspect
with isinstance / `is`, so the embedding keeps them distinct. -/
inductive Json where
  | null
  | bool (b : Bool)
  | int (n : Int)
  | float (q : ℚ)
  | str (s : String)
  | arr (xs : List Json)
  | obj (kvs : List (String × Json))
deriving Repr

/-- Numeric view used by Python `==`: bool is an int subtype
(True == 1, False == 0), and int/float compare by mathematical value. -/
def toNum : Json → Option ℚ
  | .bool b => some (if b then 1 else 0)
  | .int n => some (n : ℚ)
  | .float q => some q
  | _ => none

/-- Numeric view that excludes booleans; used for equality between
values that went through the `_Bool` wrapper of array_validators.py,
where a wrapped boolean compares equal only to the same wrapped boolean. -/
def toNumNB : Json → Option ℚ
  | .int n => some (n : ℚ)
  | .float q => some q
  | _ => none

mutual
/-- Python `==` on JSON values: None equals only None, strings compare
by content, lists elementwise, dicts by keys and values, and numbers
(bool included, since bool is an int subtype) by mathematical value,
so True == 1 and 1 == 1.0 hold.  Mapping comparison is embedded
pairwise in insertion order; the source never compares mappings whose
key order differs and no claim does either. -/
def pyEq : Json → Json → Bool
  | .null, .null => true
  | .str a, .str b => a == b
  | .arr xs, .arr ys => pyEqList xs ys
  | .obj xs, .obj ys => pyEqPairs xs ys
  | a, b =>
    match toNum a, toNum b with
    | some x, some y => decide (x = y)
    | _, _ => false

def pyEqList : List Json → List Json → Bool
  | [], [] => true
  | x :: xs, y :: ys => pyEq x y && pyEqList xs ys
  | _, _ => false

def pyEqPairs : List (String × Json) → List (String × Json) → Bool
  | [], [] => true
  | (k, v) :: xs, (l, w) :: ys => k == l && pyEq v w && pyEqPairs xs ys
  | _, _ => false
end

mutual
/-- Python `==` between the images of two values under `_wrap_booleans`
(array_validators.py lines 62-86): booleans are wrapped in the `_Bool`
class whose __eq__ accepts only another `_Bool` over the identical
int, so a wrapped boolean equals exactly the same boolean and never a
number, while unwrapped ints and floats still compare by value
(1 == 1.0 remains true). -/
def wrapEq : Json → Json → Bool
  | .null, .null => true
  | .str a, .str b => a == b
  | .bool a, .bool b => a == b
  | .arr xs, .arr ys => wrapEqList xs ys
  | .obj xs, .obj ys => wrapEqPairs xs ys
  | a, b =>
    match toNumNB a, toNumNB b with
    | some x, some y => decide (x = y)
    | _, _ => false

def wrapEqList : List Json → List Json → Bool
  | [], [] => true
  | x :: xs, y :: ys => wrapEq x y && wrapEqList xs ys
  | _, _ => false

def wrapEqPairs : List (String × Json) → List (String × Json) → Bool
  | [], [] => true
  | (k, v) :: xs, (l, w) :: ys => k == l && wrapEq v w && wrapEqPairs xs ys
  | _, _ => false
end

/-- The exceptions a validator call can surface.  ValidationError
(errors.py) subclasses ValueError and carries a stable machine code;
`vErr` holds that code after the __init__ formatting step (the codes
used here contain no placeholder, so formatting leaves them as
written).  `typeErrKw fn kw` is the plain TypeError CPython raises when
a call passes a keyword argument `kw` that the function `fn` does not
accept; it is not a ValueError and is not part of the errors.py
taxonomy.  `indexError` / `attributeError` / `zeroDivisionError` model
the corresponding builtin exceptions. -/
inductive PyErr where
  | vErr (code : String)
  | valueError
  | typeErrKw (fn kw : String)
  | typeError
  | keyError
  | indexError
  | attributeError
  | zeroDivisionError
deriving DecidableEq, Repr

/-- Whether an `except ValueError` clause catches the exception:
ValidationError and plain ValueError are caught, the others are not. -/
def PyErr.isValueError : PyErr → Bool
  | .vErr _ => true
  | .valueError => true
  | _ => false

/-- validators/__init__.py lines 53-62, validate_enum.  The loop
special-cases a boolean input, comparing it with `is` (object
identity; CPython interns True and False, so identity holds exactly
for the same boolean literal).  Any other input is compared with
`item == value`, i.e. Python equality. -/
def validate_enum (value : Json) (values : List Json) : Except PyErr Json :=
  let hit :=
    match value with
    | .bool b => values.any (fun item => match item with | .bool c => b == c | _ => false)
    | v => values.any (fun item => pyEq item v)
  if hit then .ok value else .error (.vErr "enum_error")

/-- validators/__init__.py lines 36-40, validate_equal (the `const`
keyword): Python equality against the expected literal. -/
def validate_equal (value expected : Json) : Except PyErr Json :=
  if pyEq value expected then .ok value else .error (.vErr "equal_error")

/-- validators/__init__.py lines 43-50, validate_boolean. -/
def validate_boolean (value : Json) (strict : Bool) : Except PyErr Json :=
  match value with
  | .bool b => .ok (.bool b)
  | v => if strict then .error (.vErr "type_error") else .ok v

/-- validators/__init__.py lines 72-79, validate_null. -/
def validate_null (value : Json) (strict : Bool) : Except PyErr Json :=
  match value with
  | .null => .ok .null
  | v => if strict then .error (.vErr "type_error") else .ok v

/-- number_validators.py lines 63-67: minimum_error on v < m. -/
def validate_minimum (value expected_minimum : ℚ) : Except PyErr ℚ :=
  if value ≥ expected_minimum then .ok value else .error (.vErr "minimum_error")

/-- number_validators.py lines 70-74: ExclusiveMinimumValidationError,
whose class attribute in errors.py line 67 is code = minimum_error. -/
def validate_exclusive_minimum (value expected_minimum : ℚ) : Except PyErr ℚ :=
  if value > expected_minimum then .ok value else .error (.vErr "minimum_error")

/-- number_validators.py lines 77-81: maximum_error on v > m. -/
def validate_maximum (value expected_maximum : ℚ) : Except PyErr ℚ :=
  if value ≤ expected_maximum then .ok value else .error (.vErr "maximum_error")

/-- number_validators.py lines 84-88: ExclusiveMaximumValidationError,
whose class attribute in errors.py line 77 is code = maximum_exclusive_error
(unlike the exclusive minimum, it does not reuse maximum_error). -/
def validate_exclusive_maximum (value expected_maximum : ℚ) : Except PyErr ℚ :=
  if value < expected_maximum then .ok value else .error (.vErr "maximum_exclusive_error")

/-- number_validators.py lines 56-60: value % multiple_of == 0.  For the
exact (rational) numbers the claims use, the Python remainder is zero
exactly when value / multiple_of is an integer; a zero divisor raises
ZeroDivisionError. -/
def validate_multiple_of (value multiple_of : ℚ) : Except PyErr ℚ :=
  if multiple_of = 0 then .error .zeroDivisionError
  else if (value / multiple_of).den = 1 then .ok value
  else .error (.vErr "multiple_of_error")

/-- number_validators.py lines 18-50, validate_number.  Note the
signature: value, minimum, maximum, exclusive_minimum,
exclusive_maximum, multiple_of, integer — there is no `strict`
parameter.  Booleans are rejected first; in integer mode floats are
rejected; the bound checks run in source order (minimum, maximum,
exclusive_maximum, exclusive_minimum, multiple_of). -/
def validate_number (value : Json)
    (minimum maximum exclusive_minimum exclusive_maximum multiple_of : Option ℚ)
    (integer : Bool) : Except PyErr Json := do
  let q : ℚ ←
    match value with
    | .bool _ => .error (.vErr "type_error")
    | .int n => .ok (n : ℚ)
    | .float x => if integer then .error (.vErr "type_error") else .ok x
    | _ => .error (.vErr "type_error")
  if let some m := minimum then
    let _ ← validate_minimum q m
  if let some m := maximum then
    let _ ← validate_maximum q m
  if let some m := exclusive_maximum then
    let _ ← validate_exclusive_maximum q m
  if let some m := exclusive_minimum then
    let _ ← validate_exclusive_minimum q m
  if let some m := multiple_of then
    let _ ← validate_multiple_of q m
  return value

/-- Whether the character list opens with the given run (the
str.startswith test over code points). -/
def listBeginsWith : List Char → List Char → Bool
  | _, [] => true
  | [], _ :: _ => false
  | a :: as, b :: bs => a = b && listBeginsWith as bs

/-- Whether the run occurs anywhere in the list (the truth value of
re.search for a literal pattern). -/
def containsSeq : List Char → List Char → Bool
  | [], pat => pat.isEmpty
  | c :: rest, pat => listBeginsWith (c :: rest) pat || containsSeq rest pat

/-- Python str.split with a single-character separator, over code
points: splitting the empty text yields one empty field. -/
def splitOnChar (sep : Char) : List Char → List (List Char)
  | [] => [[]]
  | c :: rest =>
    let r := splitOnChar sep rest
    if c = sep then [] :: r
    else
      match r with
      | [] => [[c]]
      | g :: gs => (c :: g) :: gs

/-- str.split("/") on a string, as used for URI path segments. -/
def strSplitOnSlash (s : String) : List String :=
  (splitOnChar '/' s.toList).map (fun l => ⟨l⟩)

/-- Stand-in for re.search(pattern, s): true when the pattern occurs in
s, treating the pattern as a literal (which agrees with re.search for
metacharacter-free patterns; no claim under study exercises regular
expression syntax).  An empty pattern matches everywhere, as in re. -/
def reSearch (pattern s : String) : Bool :=
  containsSeq s.toList pattern.toList

/-- Helper for validate_string: the `if pattern:` block fails when a
pattern was configured (non-empty in Python, `some` here) and
re.search finds no match. -/
def patternFails (pattern : Option String) (s : String) : Bool :=
  match pattern with
  | some p => !(reSearch p s)
  | none => false

/-- Modelled from the spec: opyapi/string_format.py (the StringFormat
registry) is not under src/.  Per spec section 4.6, unknown formats
silently pass; the registry is embedded as empty since no claim
exercises a format, so every format check passes the string through. -/
def validate_string_format (s : String) (format_name : String) : Except PyErr Json :=
  .ok (.str s)

/-- string_validators.py lines 8-26, validate_string.  Length is the
code-point count (Python len on str).  The MinimumLengthError and
MaximumLengthError classes are imported from opyapi.errors but absent
from the src snapshot; their codes are embedded as written here and no
claim depends on them. -/
def validate_string (value : Json) (minimum_length maximum_length : Int)
    (pattern format_name : Option String) : Except PyErr Json :=
  match value with
  | .str s =>
    if minimum_length > -1 ∧ (s.length : Int) < minimum_length then
      .error (.vErr "minimum_length_error")
    else if maximum_length > -1 ∧ (s.length : Int) > maximum_length then
      .error (.vErr "maximum_length_error")
    else if patternFails pattern s then
      .error (.vErr "format_error")
    else
      match format_name with
      | some f => validate_string_format s f
      | none => .ok (.str s)
  | _ => .error (.vErr "type_error")

/-- The duplicate scan shared by validate_array (array_validators.py
lines 110-116) and validate_tuple (lines 38-44): wrap booleans, then
walk the list keeping a `seen` accumulator and raise
UniqueItemsValidationError on the first element already seen, where
membership is Python `in`, i.e. equality of wrapped values (wrapEq). -/
def uniqueScan : List Json → List Json → Except PyErr Unit
  | seen, [] => .ok ()
  | seen, item :: rest =>
    if seen.any (fun s => wrapEq s item) then .error (.vErr "unique_items_error")
    else uniqueScan (seen ++ [item]) rest

/-- Entry point of the duplicate scan with an empty accumulator. -/
def checkUniqueItems (xs : List Json) : Except PyErr Unit :=
  uniqueScan [] xs

/-- json_schema.py JsonUri: protocol, path and fragment.  __init__
always sets a string path, but __add__ copies the path group of its
partial-regex match, which can be None; the embedding therefore keeps
path optional, with constructor-produced URIs always carrying `some`.
fragment mirrors _fragment (None or a string). -/
structure JsonUri where
  protocol : String
  path : Option String
  fragment : Option String
deriving DecidableEq, Repr

/-- A character of the protocol group `[a-z.-]` under re.IGNORECASE. -/
def protocolChar (c : Char) : Bool :=
  c.isAlpha || c = '.' || c = '-'

/-- re.match of JSON_URI_PARTIAL_REGEX (json_schema.py line 18) against
a string: optional protocol group of `[a-z.-]+` followed by the
literal colon-slash-slash, optional path group `[^#]+`, optional
fragment group after a hash.  Since the colon is outside the protocol
class, the greedy group with backtracking matches exactly when the
maximal run of protocol characters is followed by that literal.
re.match only anchors at the start, so trailing text after the
fragment group (a second hash onward) is simply left unmatched. -/
def matchUriPieces (s : String) : Option String × Option String × Option String :=
  let cs := s.toList
  let runL := cs.takeWhile protocolChar
  let (proto, restL) :=
    if runL.length ≠ 0 ∧ listBeginsWith (cs.drop runL.length) [':', '/', '/'] then
      (some (⟨runL⟩ : String), cs.drop (runL.length + 3))
    else (none, cs)
  let pathL := restL.takeWhile (fun c => c ≠ '#')
  let path := if pathL.isEmpty then none else some (⟨pathL⟩ : String)
  let afterL := restL.drop pathL.length
  let frag :=
    match afterL with
    | '#' :: t =>
      let f := t.takeWhile (fun c => c ≠ '#')
      if f.isEmpty then none else some (⟨f⟩ : String)
    | _ => none
  (proto, path, frag)

/-- re.match of JSON_URI_REGEX (json_schema.py line 17), as used by
JsonUri.__init__: protocol and path are mandatory; failure to match
raises ValueError. -/
def jsonUriParse (s : String) : Except PyErr JsonUri :=
  let cs := s.toList
  let runL := cs.takeWhile protocolChar
  if runL.length ≠ 0 ∧ listBeginsWith (cs.drop runL.length) [':', '/', '/'] then
    let restL := cs.drop (runL.length + 3)
    let pathL := restL.takeWhile (fun c => c ≠ '#')
    if pathL.isEmpty then .error .valueError
    else
      let afterL := restL.drop pathL.length
      let frag :=
        match afterL with
        | '#' :: t =>
          let f := t.takeWhile (fun c => c ≠ '#')
          if f.isEmpty then none else some (⟨f⟩ : String)
        | _ => none
      .ok ⟨⟨runL⟩, some ⟨pathL⟩, frag⟩
  else .error .valueError

/-- Python negative string indexing s[-i]: defined when 1 ≤ i ≤ len(s),
otherwise the subscript raises IndexError (modelled as none). -/
def charAtNeg (s : String) (i : Nat) : Option Char :=
  let l := s.toList
  if i ≠ 0 ∧ i ≤ l.length then l.get? (l.length - i) else none

/-- The segment-resolution loop of JsonUri.__add__ (json_schema.py
lines 63-69): dot-dot pops the accumulated segments (list.pop on an
empty list raises IndexError), a single dot is skipped, anything else
is appended. -/
def resolveSegments (acc : List String) : List String → Except PyErr (List String)
  | [] => .ok acc
  | item :: rest =>
    if item = ".." then
      match acc with
      | [] => .error .indexError
      | _ => resolveSegments acc.dropLast rest
    else if item = "." then resolveSegments acc rest
    else resolveSegments (acc ++ [item]) rest

/-- json_schema.py lines 31-72, JsonUri.__add__.  A hash-prefixed other
replaces only the fragment; a scheme-carrying other replaces protocol
and path; an absolute path replaces the path; otherwise the relative
path is resolved against the current path, after deciding with
`last_item[-4] == "." or last_item[-5] == "."` whether the last
segment is a file name — an unguarded negative index that raises
IndexError for short last segments.  A missing path group makes the
subsequent attribute access on None raise AttributeError. -/
def jsonUriAdd (self : JsonUri) (other : String) : Except PyErr JsonUri :=
  if listBeginsWith other.toList ['#'] then
    .ok { self with fragment := some (other.drop 1) }
  else
    match matchUriPieces other with
    | (proto?, path?, frag?) =>
      match proto? with
      | some p => .ok { protocol := p, path := path?, fragment := frag? }
      | none =>
        match path? with
        | none => .error .attributeError
        | some newPath =>
          if listBeginsWith newPath.toList ['/'] then
            .ok { protocol := self.protocol, path := some newPath, fragment := frag? }
          else
            match self.path with
            | none => .error .attributeError
            | some sp =>
              let pathItems := strSplitOnSlash sp
              let lastItem := pathItems.getLast?.getD ""
              match charAtNeg lastItem 4 with
              | none => .error .indexError
              | some c4 =>
                let isFile? : Except PyErr Bool :=
                  if c4 = '.' then .ok true
                  else
                    match charAtNeg lastItem 5 with
                    | none => .error .indexError
                    | some c5 => .ok (c5 = '.')
                match isFile? with
                | .error e => .error e
                | .ok isFile =>
                  let base := if isFile then pathItems.dropLast else pathItems
                  match resolveSegments base (strSplitOnSlash newPath) with
                  | .error e => .error e
                  | .ok segs =>
                    .ok { protocol := self.protocol,
                          path := some (String.intercalate "/" segs),
                          fragment := frag? }

/-- A node of a schema document during/after normalization: the JSON
constructors plus the JsonReference handle (owner schema, target URI,
overlay mapping).  The owner back-pointer is the schema being
normalized and is left implicit. -/
inductive SNode where
  | null
  | bool (b : Bool)
  | int (n : Int)
  | float (q : ℚ)
  | str (s : String)
  | arr (xs : List SNode)
  | obj (kvs : List (String × SNode))
  | ref (target : JsonUri) (overlay : List (String × SNode))
deriving Repr

/-- First-match key lookup in an insertion-ordered mapping. -/
def lookupSNode (kvs : List (String × SNode)) (k : String) : Option SNode :=
  match kvs.find? (fun p => p.1 = k) with
  | some p => some p.2
  | none => none

/-- Python `del d[k]` (dict keys are unique, so removing every pair
with that key coincides with removing the single entry). -/
def eraseKey (kvs : List (String × SNode)) (k : String) : List (String × SNode) :=
  kvs.filter (fun p => p.1 ≠ k)

/-- Python dict assignment d[k] = v: overwrite in place when the key
exists, append otherwise. -/
def updAssoc (m : List (String × String)) (k v : String) : List (String × String) :=
  if m.any (fun p => p.1 = k) then m.map (fun p => if p.1 = k then (k, v) else p)
  else m ++ [(k, v)]

/-- The combined test `key in node and isinstance(node[key], str)` of
_process_node, yielding the reference string when it holds. -/
def refLookup (kvs : List (String × SNode)) (k : String) : Option String :=
  match lookupSNode kvs k with
  | some (.str r) => some r
  | _ => none

/-- Python str() as used for anchor names in the f-string of
_process_node.  Anchors are strings in every real schema; the
renderings of the other shapes are placeholders whose exact text no
claim depends on (idempotence never re-renders them, since the anchor
keys are stripped by the first pass). -/
def pyStr : SNode → String
  | .str s => s
  | .int n => toString n
  | .bool b => if b then "True" else "False"
  | .null => "None"
  | .float q => toString q
  | .arr _ => "<list>"
  | .obj _ => "<dict>"
  | .ref _ _ => "<JsonReference>"

mutual
/-- json_schema.py lines 237-285, JsonSchema._process_node, with the
mutable _current_path threaded explicitly: `path` is the path of the
parent and `key` this node's key, so the current pointer is
path ++ [key] (the code appends on entry and pops on exit; list
indices are stringified here at once, as _process_node itself does
when it renders the anchor pointer).  Mapping nodes record and strip
$dynamicAnchor then $anchor, then a string-valued $ref (or, failing
that, $dynamicRef) turns the node into a reference handle whose
overlay is the remaining siblings, normalized; the URI addition of
`self._id + ref` can raise and then propagates.  Reference handles
and every non-list, non-mapping node are returned unchanged.
Deleting keys before the sibling walk is embedded by skipping them
during the walk, which preserves the iteration order of the rest. -/
def processNode (selfId : JsonUri) (node : SNode) (key : String) (path : List String)
    (anchors : List (String × String)) : Except PyErr (SNode × List (String × String)) :=
  let cur := path ++ [key]
  match node with
  | .arr xs =>
    match processList selfId xs 0 cur anchors with
    | .error e => .error e
    | .ok (xs', a') => .ok (.arr xs', a')
  | .obj kvs =>
    let ptr := "#/" ++ String.intercalate "/" cur
    let (anchors1, skip1) :=
      match lookupSNode kvs "$dynamicAnchor" with
      | some v => (updAssoc anchors ("#" ++ pyStr v) ptr, ["$dynamicAnchor"])
      | none => (anchors, [])
    let (anchors2, skip2) :=
      match lookupSNode kvs "$anchor" with
      | some v => (updAssoc anchors1 ("#" ++ pyStr v) ptr, "$anchor" :: skip1)
      | none => (anchors1, skip1)
    match refLookup kvs "$ref" with
    | some r =>
      (match jsonUriAdd selfId r with
       | .error e => .error e
       | .ok target =>
         match processPairs selfId kvs ("$ref" :: skip2) cur anchors2 with
         | .error e => .error e
         | .ok (ov, a3) => .ok (.ref target ov, a3))
    | none =>
      match refLookup kvs "$dynamicRef" with
      | some r =>
        (match jsonUriAdd selfId r with
         | .error e => .error e
         | .ok target =>
           match processPairs selfId kvs ("$dynamicRef" :: skip2) cur anchors2 with
           | .error e => .error e
           | .ok (ov, a3) => .ok (.ref target ov, a3))
      | none =>
        match processPairs selfId kvs skip2 cur anchors2 with
        | .error e => .error e
        | .ok (kvs', a3) => .ok (.obj kvs', a3)
  | other => .ok (other, anchors)

/-- Elementwise normalization of a sequence, with the enumerate index
as the key, threading the anchor table left to right. -/
def processList (selfId : JsonUri) (xs : List SNode) (i : Nat) (path : List String)
    (anchors : List (String × String)) : Except PyErr (List SNode × List (String × String)) :=
  match xs with
  | [] => .ok ([], anchors)
  | x :: rest =>
    match processNode selfId x (toString i) path anchors with
    | .error e => .error e
    | .ok (x', a') =>
      match processList selfId rest (i + 1) path a' with
      | .error e => .error e
      | .ok (rest', a'') => .ok (x' :: rest', a'')

/-- The mapping comprehension over node.items(): normalize each value
under its key, skipping the keys deleted beforehand. -/
def processPairs (selfId : JsonUri) (kvs : List (String × SNode)) (skip : List String)
    (path : List String) (anchors : List (String × String)) :
    Except PyErr (List (String × SNode) × List (String × String)) :=
  match kvs with
  | [] => .ok ([], anchors)
  | (k, v) :: rest =>
    if skip.contains k then processPairs selfId rest skip path anchors
    else
      match processNode selfId v k path anchors with
      | .error e => .error e
      | .ok (v', a') =>
        match processPairs selfId rest skip path a' with
        | .error e => .error e
        | .ok (rest', a'') => .ok ((k, v') :: rest', a'')
end

/-- json_schema.py lines 220-235, JsonSchema._load, over an explicit
initial state: `id0` is self._id on entry and `anchors0` the anchor
table on entry (empty for a freshly constructed schema; the table the
first pass produced when the pass is re-run).  A root-level $id, which
must parse and carry no fragment, replaces the id and is deleted;
then every root entry is normalized with an empty current path.  The
process-wide store registration is global state outside this model
and registering does not alter id, document or anchors. -/
def loadDoc (id0 : JsonUri) (anchors0 : List (String × String))
    (doc : List (String × SNode)) :
    Except PyErr (JsonUri × List (String × SNode) × List (String × String)) :=
  match
    (match lookupSNode doc "$id" with
     | some (.str s) =>
       (match jsonUriParse s with
        | .error e => .error e
        | .ok u =>
          if u.fragment.isSome then .error .valueError
          else .ok (u, eraseKey doc "$id"))
     | some _ => .error .typeError
     | none => .ok (id0, doc) :
      Except PyErr (JsonUri × List (String × SNode))) with
  | .error e => .error e
  | .ok (id1, doc1) =>
    match processPairs id1 doc1 [] [] anchors0 with
    | .error e => .error e
    | .ok (doc2, a1) => .ok (id1, doc2, a1)

mutual
/-- The shape the normalizer leaves behind: no anchor keys, no
string-valued $ref/$dynamicRef keys in any mapping reached by the
walk — reference handles are opaque to the walk, so their overlays
are not constrained.  This predicate characterizes the trees on which
a second normalization pass is the identity. -/
def isNormal : SNode → Bool
  | .arr xs => isNormalList xs
  | .obj kvs =>
    (lookupSNode kvs "$dynamicAnchor").isNone && (lookupSNode kvs "$anchor").isNone &&
    (refLookup kvs "$ref").isNone && (refLookup kvs "$dynamicRef").isNone &&
    isNormalPairs kvs
  | _ => true

/-- Elementwise normality of a sequence. -/
def isNormalList : List SNode → Bool
  | [] => true
  | x :: xs => isNormal x && isNormalList xs

/-- Valuewise normality of a mapping. -/
def isNormalPairs : List (String × SNode) → Bool
  | [] => true
  | p :: rest => isNormal p.2 && isNormalPairs rest
end

/-- First-match key lookup in a Python dict embedded as an ordered
association list (dict keys are unique in the source). -/
def lookupJson (kvs : List (String × Json)) (k : String) : Option Json :=
  match kvs.find? (fun p => p.1 = k) with
  | some p => some p.2
  | none => none

/-- The Python double-star merge of two dicts, as in
JsonReference.document (json_schema.py line 166): keys of the first
dict in order, each overridden by the second dict where that key also
occurs there, followed by the keys only the second dict has. -/
def dictMerge (a b : List (String × Json)) : List (String × Json) :=
  a.map (fun p => (p.1, (lookupJson b p.1).getD p.2))
    ++ b.filter (fun p => (lookupJson a p.1).isNone)

/-- json_schema.py lines 156-170, JsonReference.document, with the
already-resolved target supplied as doc_fragment (the store lookup,
pointer query and transitive handle resolution of lines 158-164
produce it; they are independent of the merge under study).  A mapping
target is merged as the double-star of the overlay (_ref_document)
first and the target second; anything else is returned as is. -/
def referenceDocument (ref_document : List (String × Json)) (doc_fragment : Json) : Json :=
  match doc_fragment with
  | .obj kvs => .obj (dictMerge ref_document kvs)
  | other => other

/-- A validator observed only through values: value in, value or
exception out.  This is the view the compiler claims need. -/
abbrev PureV := Json → Except PyErr Json

/-- A Python callable observed together with its frame effect: calling
it on (the object holding) a value yields the final contents of that
argument object, plus the returned value or the raised exception.  A
callable that never mutates has first component equal to its input. -/
abbrev MValidator := Json → Json × Except PyErr Json

/-- Python truthiness of a JSON value. -/
def jsonTruthy : Json → Bool
  | .null => false
  | .bool b => b
  | .int n => decide (n ≠ 0)
  | .float q => decide (q ≠ 0)
  | .str s => !s.isEmpty
  | .arr xs => !xs.isEmpty
  | .obj kvs => !kvs.isEmpty

/-- schema_validator.py lines 74-78, _return_default: substitute the
default for None, pass anything else through. -/
def _return_default (value default : Json) : Json :=
  match value with
  | .null => default
  | v => v

/-- combining_validators.py lines 7-10, validate_all_of: thread the
value left to right; nothing is caught, so the first exception
propagates. -/
def validate_all_of (value : Json) (validators : List PureV) : Except PyErr Json :=
  match validators with
  | [] => .ok value
  | v :: rest => do
    let value' ← v value
    validate_all_of value' rest

/-- combining_validators.py lines 13-20, validate_any_of, value view:
first success wins, `except ValueError` skips a failing branch, any
other exception propagates, exhaustion raises any_error.  (Each branch
runs on a deep copy; the frame-effect view is validate_any_ofM.) -/
def validate_any_of (value : Json) (validators : List PureV) : Except PyErr Json :=
  match validators with
  | [] => .error (.vErr "any_error")
  | v :: rest =>
    match v value with
    | .ok ret => .ok ret
    | .error e => if e.isValueError then validate_any_of value rest else .error e

/-- The loop of combining_validators.py lines 23-40, validate_one_of,
value view: count successes (result starts as Python None), fail with
one_of_error as soon as a second branch accepts or when none did. -/
def oneOfLoop (value : Json) (vs : List PureV) (validCount : Nat) (result : Json) :
    Except PyErr Json :=
  match vs with
  | [] => if validCount = 0 then .error (.vErr "one_of_error") else .ok result
  | v :: rest =>
    match v value with
    | .ok ret =>
      if validCount + 1 > 1 then .error (.vErr "one_of_error")
      else oneOfLoop value rest (validCount + 1) ret
    | .error e => if e.isValueError then oneOfLoop value rest validCount result else .error e

/-- combining_validators.py validate_one_of, value view. -/
def validate_one_of (value : Json) (validators : List PureV) : Except PyErr Json :=
  oneOfLoop value validators 0 .null

/-- combining_validators.py lines 43-49, validate_not. -/
def validate_not (value : Json) (validator : PureV) : Except PyErr Json :=
  match validator value with
  | .error e => if e.isValueError then .ok value else .error e
  | .ok _ => .error (.vErr "not_error")

/-- combining_validators.py lines 52-67, validate_if_then_else, value
view: the condition is evaluated, a raised ValueError selects the else
branch, success the then branch, a missing branch returns the value. -/
def validate_if_then_else (value : Json) (if_validator : PureV)
    (then_validator else_validator : Option PureV) : Except PyErr Json :=
  match if_validator value with
  | .error e =>
    if e.isValueError then
      match else_validator with
      | none => .ok value
      | some ev => ev value
    else .error e
  | .ok _ =>
    match then_validator with
    | none => .ok value
    | some tv => tv value

/-- Elementwise run of a validator over a list, stopping at the first
exception (the result.append loop of validate_array). -/
def mapExcept (f : PureV) : List Json → Except PyErr (List Json)
  | [] => .ok []
  | x :: rest => do
    let y ← f x
    let ys ← mapExcept f rest
    .ok (y :: ys)

/-- Outcome of calling validate_array / validate_tuple on an argument
object: `argAfter` is the final contents of the list object the caller
passed in, `result` the returned value or raised exception, and
`retIsArg` whether the returned object is that same argument object
(Python identity; meaningful when result is a success). -/
structure ArrayCallOut where
  argAfter : Json
  result : Except PyErr Json
  retIsArg : Bool

/-- The assignment loop of validate_tuple (array_validators.py lines
52-58): slot i is overwritten with the output of item validator i, or
of additional_items past the configured validators.  On an exception
the already-run slots keep their new values and the rest (including
the failing slot, since the assignment never happens) keep the old
ones.  Returns the final slot contents plus success or the
exception. -/
def tupleAssignLoop : List PureV → PureV → List Json → List Json × Except PyErr Unit
  | _, _, [] => ([], .ok ())
  | v :: vs, addl, x :: rest =>
    (match v x with
     | .error e => (x :: rest, .error e)
     | .ok y =>
       let (rest', s) := tupleAssignLoop vs addl rest
       (y :: rest', s))
  | [], addl, x :: rest =>
    (match addl x with
     | .error e => (x :: rest, .error e)
     | .ok y =>
       let (rest', s) := tupleAssignLoop [] addl rest
       (y :: rest', s))

/-- array_validators.py lines 26-59, validate_tuple, frame-effect view.
Source order: the isinstance guard (non-lists pass through unless
strict), the uniqueness scan, the AdditionalItemsValidationError guard
when the list is longer than the validators and additional_items is
None, then the in-place assignment loop; finally `return value`
returns the very argument object (retIsArg true on every path that
returns).  When additional_items is None the length guard makes the
loop never reach it, so a pass-through placeholder stands in. -/
def validate_tupleM (value : Json) (item_validator : List PureV)
    (additional_items : Option PureV) (unique_items strict : Bool) : ArrayCallOut :=
  match value with
  | .arr xs =>
    match (if unique_items then checkUniqueItems xs else .ok ()) with
    | .error e => ⟨.arr xs, .error e, true⟩
    | .ok () =>
      if xs.length > item_validator.length ∧ additional_items.isNone then
        ⟨.arr xs, .error (.vErr "additional_items_error"), true⟩
      else
        match tupleAssignLoop item_validator (additional_items.getD (fun x => .ok x)) xs with
        | (xs', .error e) => ⟨.arr xs', .error e, true⟩
        | (xs', .ok ()) => ⟨.arr xs', .ok (.arr xs'), true⟩
  | other =>
    if strict then ⟨other, .error (.vErr "type_error"), true⟩
    else ⟨other, .ok other, true⟩

/-- array_validators.py lines 89-123, validate_array, frame-effect
view.  With an item validator the outputs are appended to a fresh
result list and the argument slots are never assigned; without one,
result is bound to the argument object itself.  The uniqueness scan
runs over the original value, the size bounds over result, and
`return result` aliases the argument exactly when no item validator
was configured.  Mutation of the shared element objects by an item
validator is outside this value-level model (no claim depends on
it). -/
def validate_arrayM (value : Json) (item_validator : Option PureV)
    (minimum_items maximum_items : Int) (unique_items strict : Bool) : ArrayCallOut :=
  match value with
  | .arr xs =>
    match (match item_validator with
           | some f => mapExcept f xs
           | none => .ok xs) with
    | .error e => ⟨.arr xs, .error e, false⟩
    | .ok result =>
      match (if unique_items then checkUniqueItems xs else .ok ()) with
      | .error e => ⟨.arr xs, .error e, false⟩
      | .ok () =>
        if minimum_items > -1 ∧ (result.length : Int) < minimum_items then
          ⟨.arr xs, .error (.vErr "minimum_items_error"), false⟩
        else if maximum_items > -1 ∧ (result.length : Int) > maximum_items then
          ⟨.arr xs, .error (.vErr "maximum_items_error"), false⟩
        else ⟨.arr xs, .ok (.arr result), item_validator.isNone⟩
  | other =>
    if strict then ⟨other, .error (.vErr "type_error"), true⟩
    else ⟨other, .ok other, true⟩

/-- combining_validators.py lines 13-20, validate_any_of, frame-effect
view: every branch is called on deepcopy(value), so whatever the
branch does to its copy, the contents of the caller object never
change — the first component is `value` on every path.  The value
returned by a successful branch is that transformed copy. -/
def validate_any_ofM (value : Json) (validators : List MValidator) : Json × Except PyErr Json :=
  match validators with
  | [] => (value, .error (.vErr "any_error"))
  | v :: rest =>
    match (v value).2 with
    | .ok ret => (value, .ok ret)
    | .error e => if e.isValueError then validate_any_ofM value rest else (value, .error e)

/-- The validate_one_of loop in frame-effect view; as with anyOf the
branches only ever see deep copies. -/
def oneOfMLoop (value : Json) (vs : List MValidator) (validCount : Nat) (result : Json) :
    Json × Except PyErr Json :=
  match vs with
  | [] =>
    if validCount = 0 then (value, .error (.vErr "one_of_error")) else (value, .ok result)
  | v :: rest =>
    match (v value).2 with
    | .ok ret =>
      if validCount + 1 > 1 then (value, .error (.vErr "one_of_error"))
      else oneOfMLoop value rest (validCount + 1) ret
    | .error e => if e.isValueError then oneOfMLoop value rest validCount result else (value, .error e)

/-- combining_validators.py lines 23-40, validate_one_of, frame-effect
view. -/
def validate_one_ofM (value : Json) (validators : List MValidator) : Json × Except PyErr Json :=
  oneOfMLoop value validators 0 .null

/-- combining_validators.py lines 52-67, validate_if_then_else,
frame-effect view.  Unlike anyOf/oneOf there is no deepcopy: the
condition is called on the argument object itself, so its mutations
land in the object the selected branch receives (and in what the
caller sees); `return value` returns that object with its current,
possibly mutated, contents. -/
def validate_if_then_elseM (value : Json) (if_validator : MValidator)
    (then_validator else_validator : Option MValidator) : Json × Except PyErr Json :=
  match if_validator value with
  | (v1, .error e) =>
    if e.isValueError then
      match else_validator with
      | none => (v1, .ok v1)
      | some ev => ev v1
    else (v1, .error e)
  | (v1, .ok _) =>
    match then_validator with
    | none => (v1, .ok v1)
    | some tv => tv v1

/-- schema_validator.py lines 32-43. -/
def OBJECT_VALIDATOR_PROPERTIES : List String :=
  ["properties", "required", "patternProperties", "additionalProperties",
   "propertyNames", "minProperties", "maxProperties", "dependentRequired", "dependencies"]

/-- schema_validator.py lines 45-51. -/
def ARRAY_VALIDATOR_PROPERTIES : List String :=
  ["items", "additionalItems", "minItems", "maxItems", "uniqueItems"]

/-- schema_validator.py lines 53-59. -/
def NUMERIC_VALIDATOR_PROPERTIES : List String :=
  ["multipleOf", "minimum", "exclusiveMinimum", "maximum", "exclusiveMaximum"]

/-- schema_validator.py lines 61-66. -/
def STRING_VALIDATOR_PROPERTIES : List String :=
  ["minLength", "maxLength", "pattern", "format"]

/-- schema_validator.py lines 81-99, _detect_schema_type: the declared
type when present, else a shape inferred from the keyword families in
their source order; none stands for the falsy empty string, which
makes the caller add no type validator at all. -/
def _detect_schema_type (kvs : List (String × Json)) : Option Json :=
  match lookupJson kvs "type" with
  | some t => some t
  | none =>
    let keys := kvs.map (fun p => p.1)
    if keys.any (fun k => OBJECT_VALIDATOR_PROPERTIES.contains k) then some (.str "object")
    else if keys.any (fun k => ARRAY_VALIDATOR_PROPERTIES.contains k) then some (.str "array")
    else if keys.any (fun k => NUMERIC_VALIDATOR_PROPERTIES.contains k) then some (.str "number")
    else if keys.any (fun k => STRING_VALIDATOR_PROPERTIES.contains k) then some (.str "string")
    else none

/-- Integer-valued schema keyword with a default (all modelled schemas
carry integers for the size and length keywords, as every schema in
the repository does). -/
def intKeyOr (kvs : List (String × Json)) (k : String) (d : Int) : Int :=
  match lookupJson kvs k with
  | some (.int n) => n
  | _ => d

/-- String-valued schema keyword, none when absent (a non-string value
for pattern/format is outside the modelled fragment and unexercised by
every claim). -/
def strKeyOpt (kvs : List (String × Json)) (k : String) : Option String :=
  match lookupJson kvs k with
  | some (.str s) => some s
  | _ => none

/-- schema_validator.py lines 202-220, _build_string_validator: bind
the present string keywords, and in non-strict mode let every
non-string value pass through untouched. -/
def _build_string_validator (kvs : List (String × Json)) (strict : Bool) : PureV :=
  let validator : PureV := fun value =>
    validate_string value (intKeyOr kvs "minLength" (-1)) (intKeyOr kvs "maxLength" (-1))
      (strKeyOpt kvs "pattern") (strKeyOpt kvs "format")
  if strict then validator
  else fun value =>
    match value with
    | .str s => validator (.str s)
    | v => .ok v

/-- schema_validator.py lines 235-256, _build_numerical_validator.  The
builder returns partial(validate_number, integer=..., strict=strict)
with the bound keywords stacked on top — but validate_number
(number_validators.py line 18) has no `strict` parameter, so CPython
rejects the call with TypeError: validate_number() got an unexpected
keyword argument, before the body of validate_number ever runs.
Every invocation of the built validator therefore raises that plain
TypeError, for any input value. -/
def _build_numerical_validator (kvs : List (String × Json)) (strict : Bool) : PureV :=
  fun _ => .error (.typeErrKw "validate_number" "strict")

/-- schema_validator.py lines 307-360, _build_object_validator.  Same
defect as the numerical builder: line 308 binds
partial(validate_object, strict=strict), but validate_object
(object_validators.py lines 38-48) accepts obj, properties,
min_properties, max_properties, required_properties,
pattern_properties, additional_properties, property_names,
dependencies — no `strict`.  Whatever further keywords the builder
stacks on, the call itself raises TypeError: validate_object() got an
unexpected keyword argument, so the built validator fails with that
non-taxonomy error on every input (the allOf composition of line 358
runs this validator first, so it cannot mask the defect; with if/then
present line 358 even feeds callables back into build_validator_for,
failing already at build time — no claim reaches that branch). -/
def _build_object_validator (kvs : List (String × Json)) (strict : Bool) : PureV :=
  fun _ => .error (.typeErrKw "validate_object" "strict")

/-- Modelled from the spec: validate_contains is imported by
schema_validator.py from opyapi.validators, but its definition is not
in the src snapshot.  Spec section 4.6: at least one element must
validate.  No claim exercises it. -/
def validate_contains (value : Json) (validator : PureV) : Except PyErr Json :=
  match value with
  | .arr xs =>
    if xs.any (fun x => match validator x with | .ok _ => true | .error _ => false)
    then .ok value else .error (.vErr "contains_error")
  | v => .ok v

mutual
/-- schema_validator.py lines 102-163, build_validator_for.  The fuel
argument only bounds the recursion depth through nested subschemas; it
is not part of the source (which recurses directly) and every claim
instantiates it large enough that the exhaustion branch is never
taken.  True and the empty mapping compile to the identity, False to
the always-failing validator (a code-less ValidationError, default
code validation_error); otherwise the root validator list is
assembled in source order — type (declared, else detected in
non-strict mode), anyOf, oneOf, allOf, not — after which enum
short-circuits, a conditional with at least one branch
short-circuits, a then/else-only schema is the identity, const
short-circuits, and default and contains are appended;  a single
root validator is returned as is, several as their allOf.  An empty
root list makes line 163 index into an empty Python list, an
IndexError raised at build time, embedded as a validator carrying
that error; likewise the TypeErrors that malformed (non-sequence)
combinator keywords raise at build time are carried in the returned
validator — branches no claim reaches.  Truthy non-mapping,
non-boolean schemas are outside the modelled fragment. -/
def build_validator_for (fuel : Nat) (schema : Json) : PureV :=
  match fuel with
  | 0 => fun _ => .error (.vErr "model_fuel_exhausted")
  | fuel + 1 =>
    match schema with
    | .bool true => fun value => .ok value
    | .bool false => fun value => .error (.vErr "validation_error")
    | .null => fun value => .ok value
    | .obj kvs =>
      if kvs.isEmpty then fun value => .ok value
      else
        let root0 : List PureV :=
          match lookupJson kvs "type" with
          | some t => [_build_validator_for_type fuel t kvs true]
          | none =>
            match _detect_schema_type kvs with
            | some dt => [_build_validator_for_type fuel dt kvs false]
            | none => []
        let root1 := root0 ++
          (match lookupJson kvs "anyOf" with
           | some (.arr items) =>
             [fun value => validate_any_of value (items.map (fun s => build_validator_for fuel s))]
           | some _ => [fun _ => .error .typeError]
           | none => [])
        let root2 := root1 ++
          (match lookupJson kvs "oneOf" with
           | some (.arr items) =>
             [fun value => validate_one_of value (items.map (fun s => build_validator_for fuel s))]
           | some _ => [fun _ => .error .typeError]
           | none => [])
        let root3 := root2 ++
          (match lookupJson kvs "allOf" with
           | some (.arr items) =>
             [fun value => validate_all_of value (items.map (fun s => build_validator_for fuel s))]
           | some _ => [fun _ => .error .typeError]
           | none => [])
        let root4 := root3 ++
          (match lookupJson kvs "not" with
           | some s => [fun value => validate_not value (build_validator_for fuel s)]
           | none => [])
        match lookupJson kvs "enum" with
        | some (.arr vs) => fun value => validate_enum value vs
        | some _ => fun _ => .error .typeError
        | none =>
          match lookupJson kvs "if" with
          | some _ =>
            if (lookupJson kvs "then").isSome ∨ (lookupJson kvs "else").isSome then
              _build_conditional_validator fuel kvs
            else fun x => .ok x
          | none =>
            if ((lookupJson kvs "then").isSome ∨ (lookupJson kvs "else").isSome)
                ∧ kvs.all (fun p => p.1 = "then" ∨ p.1 = "else") then
              fun x => .ok x
            else
              match lookupJson kvs "const" with
              | some c => fun value => validate_equal value c
              | none =>
                let root5 := root4 ++
                  (match lookupJson kvs "default" with
                   | some d => [fun value => .ok (_return_default value d)]
                   | none => [])
                let root6 := root5 ++
                  (match lookupJson kvs "contains" with
                   | some s =>
                     [fun value => validate_contains value (build_validator_for fuel s)]
                   | none => [])
                match root6 with
                | [] => fun _ => .error .indexError
                | [v] => v
                | vs => fun value => validate_all_of value vs
    | _ => fun _ => .error .typeError

/-- schema_validator.py lines 172-199, _build_validator_for_type:
dispatch on the type name; a list type compiles to anyOf over the
member types; anything unrecognized falls back to the string
validator with its default strict=True. -/
def _build_validator_for_type (fuel : Nat) (t : Json) (kvs : List (String × Json))
    (strict : Bool) : PureV :=
  match fuel with
  | 0 => fun _ => .error (.vErr "model_fuel_exhausted")
  | fuel + 1 =>
    match t with
    | .str "boolean" => fun value => validate_boolean value strict
    | .str "integer" => _build_numerical_validator kvs strict
    | .str "number" => _build_numerical_validator kvs strict
    | .str "string" => _build_string_validator kvs strict
    | .str "array" => _build_array_validator fuel kvs strict
    | .str "object" => _build_object_validator kvs strict
    | .str "null" => fun value => validate_null value strict
    | .arr items =>
      fun value =>
        validate_any_of value
          (items.map (fun it => _build_validator_for_type fuel it kvs strict))
    | _ => _build_string_validator kvs true

/-- schema_validator.py lines 259-281, _build_array_validator: a list
items goes to the tuple builder; a mapping items binds the item
validator and continues to the size/uniqueness keywords; a boolean
items returns early (true: bare array validator, false: maximum_items
0), skipping those keywords; any other items shape leaves no item
validator bound. -/
def _build_array_validator (fuel : Nat) (kvs : List (String × Json)) (strict : Bool) : PureV :=
  match fuel with
  | 0 => fun _ => .error (.vErr "model_fuel_exhausted")
  | fuel + 1 =>
    match lookupJson kvs "items" with
    | some (.arr _) => _build_tuple_validator fuel kvs strict
    | some (.bool true) => fun value => (validate_arrayM value none (-1) (-1) false strict).result
    | some (.bool false) => fun value => (validate_arrayM value none (-1) 0 false strict).result
    | itemsEntry =>
      let itemV : Option PureV :=
        match itemsEntry with
        | some (.obj okvs) => some (build_validator_for fuel (.obj okvs))
        | _ => none
      let uniq :=
        match lookupJson kvs "uniqueItems" with
        | some v => jsonTruthy v
        | none => false
      fun value =>
        (validate_arrayM value itemV (intKeyOr kvs "minItems" (-1))
          (intKeyOr kvs "maxItems" (-1)) uniq strict).result

/-- schema_validator.py lines 284-304, _build_tuple_validator: one
validator per items entry; additionalItems True binds the identity,
False the additional_items_error raiser, a mapping its compiled
validator, any other present shape leaves it None, and an absent
additionalItems binds the identity. -/
def _build_tuple_validator (fuel : Nat) (kvs : List (String × Json)) (strict : Bool) : PureV :=
  match fuel with
  | 0 => fun _ => .error (.vErr "model_fuel_exhausted")
  | fuel + 1 =>
    let itemVs : List PureV :=
      match lookupJson kvs "items" with
      | some (.arr schemas) => schemas.map (fun s => build_validator_for fuel s)
      | _ => []
    let addl : Option PureV :=
      match lookupJson kvs "additionalItems" with
      | some (.bool true) => some (fun x => .ok x)
      | some (.bool false) => some (fun _ => .error (.vErr "additional_items_error"))
      | some (.obj okvs) => some (build_validator_for fuel (.obj okvs))
      | some _ => none
      | none => some (fun x => .ok x)
    let uniq :=
      match lookupJson kvs "uniqueItems" with
      | some v => jsonTruthy v
      | none => false
    fun value => (validate_tupleM value itemVs addl uniq strict).result

/-- schema_validator.py lines 363-391, _build_conditional_validator: a
False branch becomes the input_error raiser, a True branch stays
unbound (identity via the missing-branch path of
validate_if_then_else), anything else is compiled.  The `if` key is
guaranteed by both call sites; its absence would be a KeyError. -/
def _build_conditional_validator (fuel : Nat) (kvs : List (String × Json)) : PureV :=
  match fuel with
  | 0 => fun _ => .error (.vErr "model_fuel_exhausted")
  | fuel + 1 =>
    let ifV : PureV :=
      match lookupJson kvs "if" with
      | some s => build_validator_for fuel s
      | none => fun _ => .error .keyError
    let thenV : Option PureV :=
      match lookupJson kvs "then" with
      | some (.bool false) => some (fun _ => .error (.vErr "input_error"))
      | some (.bool true) => none
      | some s => some (build_validator_for fuel s)
      | none => none
    let elseV : Option PureV :=
      match lookupJson kvs "else" with
      | some (.bool false) => some (fun _ => .error (.vErr "input_error"))
      | some (.bool true) => none
      | some s => some (build_validator_for fuel s)
      | none => none
    fun value => validate_if_then_else value ifV thenV elseV
end

/-- The frame-effect semantics of the validator compiled from the
if-subschema whose only keyword is items with a single tuple entry
carrying default x: _detect_schema_type infers array from the items
key, items is a list, so _build_tuple_validator yields validate_tuple
with the defaulting item validator, the identity additional-items
callable (additionalItems absent) and strict False.  Used as a
concrete mutating condition validator. -/
def tupleDefaultIfValidator : MValidator :=
  fun value =>
    let out := validate_tupleM value [fun v => .ok (_return_default v (.str "x"))]
        (some (fun x => .ok x)) false false
    (out.argAfter, out.result)

/-- The validator the assignment loop of validate_tuple applies at
index i: the configured item validator inside the prefix, the
additional-items callable beyond it (mirroring the
`if i < validators_length` branch of the loop). -/
def applyTupleValidator (itemVs : List PureV) (addl : PureV) (i : Nat) : PureV :=
  match itemVs.get? i with
  | some v => v
  | none => addl

end Opyapi

namespace Opyapi

theorem lookupJson_cons (q : String × Json) (rest : List (String × Json)) (k : String) :
    lookupJson (q :: rest) k = if q.1 = k then some q.2 else lookupJson rest k := by
  by_cases h : q.1 = k <;> simp [lookupJson, List.find?, h]

theorem lookupJson_append (xs ys : List (String × Json)) (k : String) :
    lookupJson (xs ++ ys) k =
      match lookupJson xs k with
      | some v => some v
      | none => lookupJson ys k := by
  induction xs with
  | nil => rfl
  | cons p rest ih =>
    rw [List.cons_append, lookupJson_cons, lookupJson_cons]
    by_cases hk : p.1 = k
    · simp [hk]
    · simp [hk, ih]

theorem lookupJson_map_override (a b : List (String × Json)) (k : String) :
    lookupJson (a.map (fun p => (p.1, (lookupJson b p.1).getD p.2))) k =
      match lookupJson a k with
      | some v => some ((lookupJson b k).getD v)
      | none => none := by
  induction a with
  | nil => rfl
  | cons p rest ih =>
    rw [List.map_cons, lookupJson_cons, lookupJson_cons]
    by_cases hk : p.1 = k
    · subst hk; simp
    · simp [hk, ih]

theorem lookupJson_filter_shadow (a b : List (String × Json)) (k : String) :
    lookupJson (b.filter (fun p => (lookupJson a p.1).isNone)) k =
      if (lookupJson a k).isNone then lookupJson b k else none := by
  induction b with
  | nil => cases h : (lookupJson a k).isNone <;> simp [lookupJson, List.find?, h]
  | cons p rest ih =>
    rw [List.filter_cons]
    by_cases hk : p.1 = k
    · subst hk
      cases hg : (lookupJson a p.1).isNone with
      | false => simp [hg, ih, lookupJson_cons]
      | true => simp [hg, lookupJson_cons]
    · cases hg : (lookupJson a p.1).isNone with
      | false => simp [hg, ih, lookupJson_cons, hk]
      | true => simp [hg, lookupJson_cons, hk, ih]

theorem lookup_dictMerge (a b : List (String × Json)) (k : String) :
    lookupJson (dictMerge a b) k =
      match lookupJson b k with
      | some v => some v
      | none => lookupJson a k := by
  rw [dictMerge, lookupJson_append, lookupJson_map_override, lookupJson_filter_shadow]
  cases hb : lookupJson b k with
  | some v =>
    cases ha : lookupJson a k with
    | some w => simp [ha, hb]
    | none => simp [ha, hb]
  | none =>
    cases ha : lookupJson a k with
    | some w => simp [ha, hb]
    | none => simp [ha, hb]

/-- Claim C3 is false on the code: with overlay key x mapping to 1 and
the resolved target carrying x mapping to 2, JsonReference.document
exposes the target value 2, not the overlay value 1 — the double-star
merge of line 166 puts the overlay first, so the target wins. -/
theorem c3_counterexample :
    referenceDocument [("x", .int 1)] (.obj [("x", .int 2)]) = .obj [("x", .int 2)] ∧
    lookupJson (dictMerge [("x", .int 1)] [("x", .int 2)]) "x" = some (.int 2) ∧
    some (Json.int 2) ≠ some (Json.int 1) := by
  refine ⟨rfl, rfl, by simp⟩

/-- Claim C3 (amended): when a reference handle dereferences to a
mapping, the overlay is merged under the resolved target with the
target winning: for every key in both, document exposes the target
value, and the overlay value surfaces only for keys the target lacks. -/
theorem c3_merge_target_wins (overlay target : List (String × Json)) (k : String) :
    referenceDocument overlay (.obj target) = .obj (dictMerge overlay target) ∧
    lookupJson (dictMerge overlay target) k =
      (match lookupJson target k with
       | some v => some v
       | none => lookupJson overlay k) :=
  ⟨rfl, lookup_dictMerge overlay target k⟩

/-- Claim C1 is right and the code is wrong: the compiled validator for
the integer (and object) type raises a plain TypeError — CPython
rejecting the keyword argument named strict that
_build_numerical_validator and _build_object_validator bind although
validate_number and validate_object do not accept it — instead of
returning the value or raising a taxonomy error: the package breaks
its own test (test_number_validator asserts that the compiled
integer validator accepts 1).  The TypeError is not a ValueError, so
it is also not swallowed by any combinator. -/
theorem c1_strict_keyword_typeerror :
    build_validator_for 6 (.obj [("type", .str "integer")]) (.int 1)
      = .error (.typeErrKw "validate_number" "strict") ∧
    build_validator_for 6 (.obj [("type", .str "number")]) (.float 1)
      = .error (.typeErrKw "validate_number" "strict") ∧
    build_validator_for 6 (.obj [("type", .str "object")]) (.obj [])
      = .error (.typeErrKw "validate_object" "strict") ∧
    (PyErr.typeErrKw "validate_number" "strict").isValueError = false :=
  ⟨rfl, rfl, rfl, rfl⟩

/-- Claim C4 is false on the code: for the schema with type string and
default x, applied to null, the compiled validator raises type_error —
the defaulting step is appended after the type validator, not
prepended, so validate_string rejects null first. -/
theorem c4_counterexample :
    build_validator_for 6 (.obj [("type", .str "string"), ("default", .str "x")]) .null
      = .error (.vErr "type_error") := rfl

/-- Claim C4 (amended): the compiler appends the defaulting step after
the accumulated validators (for type string plus default x the root
list is exactly the strict string validator followed by the default
step), so a null input reaches the type validator first and fails
with type_error; the default is substituted only when every earlier
validator accepts null — e.g. a schema with only default maps null to
the default and passes any other value through. -/
theorem c4_default_appended :
    (∀ v, build_validator_for 6 (.obj [("type", .str "string"), ("default", .str "x")]) v
      = validate_all_of v
          [_build_string_validator [("type", .str "string"), ("default", .str "x")] true,
           fun value => .ok (_return_default value (.str "x"))]) ∧
    build_validator_for 6 (.obj [("type", .str "string"), ("default", .str "x")]) .null
      = .error (.vErr "type_error") ∧
    build_validator_for 6 (.obj [("type", .str "string"), ("default", .str "x")]) (.str "s")
      = .ok (.str "s") ∧
    build_validator_for 6 (.obj [("default", .str "x")]) .null = .ok (.str "x") ∧
    build_validator_for 6 (.obj [("default", .str "x")]) (.int 5) = .ok (.int 5) :=
  ⟨fun v => rfl, rfl, rfl, rfl, rfl⟩

/-- Claim C2 is false on the code: validate_enum with the non-boolean
input 1 compares with Python equality, so the enum with single member
1.0 (and likewise the enum with single member true) accepts 1 instead
of failing with enum_error; and under the uniqueItems scan 1 and 1.0
are duplicates, since _wrap_booleans wraps only booleans and leaves
1 == 1.0 true. -/
theorem c2_counterexample :
    validate_enum (.int 1) [.float 1] = .ok (.int 1) ∧
    validate_enum (.int 1) [.bool true] = .ok (.int 1) ∧
    checkUniqueItems [.int 1, .float 1] = .error (.vErr "unique_items_error") :=
  ⟨rfl, rfl, rfl⟩

/-- Claim C2 (amended): the boolean wrapper makes uniqueItems treat
booleans as distinct from numbers, so the array holding 1 and true
has no duplicate, but 1 and 1.0 stay equal, so the array holding 1
and 1.0 is rejected with unique_items_error; for enum, only a boolean
input is compared by identity (accepting exactly the same boolean and
rejecting 1), while a numeric input is compared with Python equality,
so 1 is accepted against enums listing 1.0 or true — the three values
are pairwise distinguished only when the boolean is the input. -/
theorem c2_equality_semantics :
    (validate_arrayM (.arr [.int 1, .bool true]) none (-1) (-1) true true).result
      = .ok (.arr [.int 1, .bool true]) ∧
    (validate_arrayM (.arr [.int 1, .float 1]) none (-1) (-1) true true).result
      = .error (.vErr "unique_items_error") ∧
    validate_enum (.bool true) [.int 1] = .error (.vErr "enum_error") ∧
    validate_enum (.bool true) [.bool true] = .ok (.bool true) ∧
    validate_enum (.int 1) [.float 1] = .ok (.int 1) ∧
    validate_enum (.int 1) [.bool true] = .ok (.int 1) ∧
    validate_enum (.float 1) [.int 1] = .ok (.float 1) :=
  ⟨rfl, rfl, rfl, rfl, rfl, rfl, rfl⟩

/-- Claim C7 is false on the code for the exclusive maximum: the error
ExclusiveMaximumValidationError carries the machine code
maximum_exclusive_error (errors.py line 77), not maximum_error. -/
theorem c7_counterexample :
    validate_exclusive_maximum 5 5 = .error (.vErr "maximum_exclusive_error") ∧
    PyErr.vErr "maximum_exclusive_error" ≠ PyErr.vErr "maximum_error" :=
  ⟨rfl, by decide⟩

/-- Claim C7 (amended): minimum violations carry minimum_error in both
the inclusive and the exclusive form, inclusive maximum violations
carry maximum_error, but exclusive maximum violations carry the
distinct code maximum_exclusive_error. -/
theorem c7_range_error_codes (v m : ℚ) :
    (v < m → validate_minimum v m = .error (.vErr "minimum_error")) ∧
    (v ≤ m → validate_exclusive_minimum v m = .error (.vErr "minimum_error")) ∧
    (m < v → validate_maximum v m = .error (.vErr "maximum_error")) ∧
    (m ≤ v → validate_exclusive_maximum v m = .error (.vErr "maximum_exclusive_error")) := by
  refine ⟨fun h => ?_, fun h => ?_, fun h => ?_, fun h => ?_⟩
  · unfold validate_minimum; rw [if_neg (not_le.mpr h)]
  · unfold validate_exclusive_minimum; rw [if_neg (not_lt.mpr h)]
  · unfold validate_maximum; rw [if_neg (not_le.mpr h)]
  · unfold validate_exclusive_maximum; rw [if_neg (not_lt.mpr h)]

/-- Concrete instance of the C7 theorem with every bound violated. -/
theorem c7_witness :
    validate_minimum 3 5 = .error (.vErr "minimum_error") ∧
    validate_exclusive_minimum 5 5 = .error (.vErr "minimum_error") ∧
    validate_maximum 7 5 = .error (.vErr "maximum_error") ∧
    validate_exclusive_maximum 5 5 = .error (.vErr "maximum_exclusive_error") :=
  ⟨(c7_range_error_codes 3 5).1 (by norm_num),
   (c7_range_error_codes 5 5).2.1 le_rfl,
   (c7_range_error_codes 7 5).2.2.1 (by norm_num),
   (c7_range_error_codes 5 5).2.2.2 le_rfl⟩

theorem validate_any_ofM_fst (value : Json) (vs : List MValidator) :
    (validate_any_ofM value vs).1 = value := by
  induction vs with
  | nil => rfl
  | cons v rest ih =>
    rw [validate_any_ofM]
    cases (v value).2 with
    | ok ret => rfl
    | error e =>
      cases he : e.isValueError with
      | false => simp [he]
      | true => simp [he, ih]

theorem oneOfMLoop_fst (value : Json) (vs : List MValidator) (c : Nat) (r : Json) :
    (oneOfMLoop value vs c r).1 = value := by
  induction vs generalizing c r with
  | nil =>
    rw [oneOfMLoop]
    by_cases hc : c = 0 <;> simp [hc]
  | cons v rest ih =>
    rw [oneOfMLoop]
    cases (v value).2 with
    | ok ret =>
      by_cases hc : c + 1 > 1
      · simp [hc]
      · simp [hc, ih]
    | error e =>
      cases he : e.isValueError with
      | false => simp [he]
      | true => simp [he, ih]

/-- Claim C6: anyOf and oneOf call every branch on a deep copy of the
input, so however a branch transforms or defaults its copy (even
before failing), the contents of the caller object are unchanged:
the first component of the frame-effect semantics is always the input
value itself. -/
theorem c6_anyOf_oneOf_isolation (value : Json) (vs ws : List MValidator) :
    (validate_any_ofM value vs).1 = value ∧ (validate_one_ofM value ws).1 = value :=
  ⟨validate_any_ofM_fst value vs, oneOfMLoop_fst value ws 0 .null⟩

/-- Claim C5 is false on the code: validate_if_then_else runs the
condition directly on the input object, with no deep copy.  With the
condition compiled from the tuple schema whose single entry defaults
null to x, the input list holding null is mutated in place to the
list holding x, and that mutated list — not the original input — is
what the call returns when both branches are absent. -/
theorem c5_counterexample :
    validate_if_then_elseM (.arr [.null]) tupleDefaultIfValidator none none
      = (.arr [.str "x"], .ok (.arr [.str "x"])) ∧
    Json.arr [.str "x"] ≠ .arr [.null] := by
  refine ⟨rfl, by simp⟩

/-- Claim C5 (amended): the if validator is evaluated directly on the
input value, not on a deep copy.  When its call returns with the
argument contents v1, the branch-absent call returns v1 itself; only
under the extra hypothesis that the if validator left its argument
unchanged does the selected then (or else) branch receive the
original V. -/
theorem c5_if_runs_on_input (value : Json) (ifV : MValidator)
    (thenV elseV : Option MValidator) :
    (∀ w, (ifV value).2 = .ok w →
      validate_if_then_elseM value ifV none none = ((ifV value).1, .ok ((ifV value).1))) ∧
    (∀ w, (ifV value).1 = value → (ifV value).2 = .ok w →
      validate_if_then_elseM value ifV thenV elseV =
        (match thenV with
         | none => (value, .ok value)
         | some tv => tv value)) ∧
    (∀ e, (ifV value).1 = value → (ifV value).2 = .error e → e.isValueError = true →
      validate_if_then_elseM value ifV thenV elseV =
        (match elseV with
         | none => (value, .ok value)
         | some ev => ev value)) := by
  refine ⟨fun w hw => ?_, fun w h1 h2 => ?_, fun e h1 h2 h3 => ?_⟩
  · rw [validate_if_then_elseM]
    rcases hv : ifV value with ⟨v1, r⟩
    rw [hv] at hw
    simp only at hw
    subst hw
    rfl
  · rw [validate_if_then_elseM]
    rcases hv : ifV value with ⟨v1, r⟩
    rw [hv] at h1 h2
    simp only at h1 h2
    subst h1; subst h2
    cases thenV <;> rfl
  · rw [validate_if_then_elseM]
    rcases hv : ifV value with ⟨v1, r⟩
    rw [hv] at h1 h2
    simp only at h1 h2
    subst h1; subst h2
    simp only [h3]
    cases elseV <;> rfl

/-- Concrete instance of the C5 theorem: a condition validator that
does not mutate (the identity) leaves the returned value equal to the
input. -/
theorem c5_witness :
    validate_if_then_elseM (.int 3) (fun j => (j, .ok j)) none none
      = (.int 3, .ok (.int 3)) :=
  (c5_if_runs_on_input (.int 3) (fun j => (j, .ok j)) none none).1 (.int 3) rfl

theorem applyTupleValidator_cons (v : PureV) (vs : List PureV) (addl : PureV) (i : Nat) :
    applyTupleValidator (v :: vs) addl (i + 1) = applyTupleValidator vs addl i := by
  simp [applyTupleValidator]

theorem applyTupleValidator_nil (addl : PureV) (i : Nat) :
    applyTupleValidator [] addl i = addl := by
  simp [applyTupleValidator]

theorem tupleAssignLoop_ok (itemVs : List PureV) (addl : PureV) (xs ys : List Json)
    (h : tupleAssignLoop itemVs addl xs = (ys, .ok ())) :
    ys.length = xs.length ∧
    ∀ i (hx : i < xs.length) (hy : i < ys.length),
      applyTupleValidator itemVs addl i (xs.get ⟨i, hx⟩) = .ok (ys.get ⟨i, hy⟩) := by
  induction xs generalizing itemVs ys with
  | nil =>
    rw [tupleAssignLoop] at h
    cases h
    exact ⟨rfl, fun i hx hy => absurd hx (by simp at hx)⟩
  | cons x rest ih =>
    cases itemVs with
    | cons v vs =>
      rw [tupleAssignLoop] at h
      cases hv : v x with
      | error e => rw [hv] at h; cases h
      | ok y =>
        rw [hv] at h
        rcases hr : tupleAssignLoop vs addl rest with ⟨rest', s⟩
        rw [hr] at h
        cases s with
        | error e => cases h
        | ok u =>
          cases h
          obtain ⟨hlen, hidx⟩ := ih vs rest' hr
          refine ⟨by simp [hlen], fun i hx hy => ?_⟩
          cases i with
          | zero => simpa [applyTupleValidator] using hv
          | succ j =>
            rw [applyTupleValidator_cons]
            exact hidx j (by simpa using hx) (by simpa using hy)
    | nil =>
      rw [tupleAssignLoop] at h
      cases hv : addl x with
      | error e => rw [hv] at h; cases h
      | ok y =>
        rw [hv] at h
        rcases hr : tupleAssignLoop [] addl rest with ⟨rest', s⟩
        rw [hr] at h
        cases s with
        | error e => cases h
        | ok u =>
          cases h
          obtain ⟨hlen, hidx⟩ := ih [] rest' hr
          refine ⟨by simp [hlen], fun i hx hy => ?_⟩
          cases i with
          | zero => simpa [applyTupleValidator] using hv
          | succ j =>
            rw [applyTupleValidator_nil]
            have := hidx j (by simpa using hx) (by simpa using hy)
            rwa [applyTupleValidator_nil] at this

/-- Claim C10: on every accepted list, validate_tuple overwrites each
slot of the argument object with the output of the matching item (or
additional-items) validator and returns that very object — the final
argument contents, the returned list and its elementwise
characterization all coincide, and the returned object is the
argument (retIsArg).  validate_array with an item validator, by
contrast, leaves the argument slots untouched on every outcome and
returns a fresh list (retIsArg false). -/
theorem c10_tuple_inplace_array_fresh (xs : List Json) (itemVs : List PureV)
    (addl : Option PureV) (uniq strict : Bool) (f : PureV) (minI maxI : Int)
    (u2 s2 : Bool) :
    (∀ ret, (validate_tupleM (.arr xs) itemVs addl uniq strict).result = .ok ret →
      (validate_tupleM (.arr xs) itemVs addl uniq strict).argAfter = ret ∧
      (validate_tupleM (.arr xs) itemVs addl uniq strict).retIsArg = true ∧
      ∃ ys, ret = .arr ys ∧ ys.length = xs.length ∧
        ∀ i (hx : i < xs.length) (hy : i < ys.length),
          applyTupleValidator itemVs (addl.getD (fun x => .ok x)) i (xs.get ⟨i, hx⟩)
            = .ok (ys.get ⟨i, hy⟩)) ∧
    (validate_arrayM (.arr xs) (some f) minI maxI u2 s2).argAfter = .arr xs ∧
    (validate_arrayM (.arr xs) (some f) minI maxI u2 s2).retIsArg = false := by
  refine ⟨fun ret => ?_, ?_, ?_⟩
  · rw [validate_tupleM]
    cases hu : (if uniq then checkUniqueItems xs else .ok ()) with
    | error e => intro hret; cases hret
    | ok u =>
      obtain ⟨⟩ := u
      by_cases hg : xs.length > itemVs.length ∧ addl.isNone = true
      · rw [if_pos hg]; intro hret; cases hret
      · rw [if_neg hg]
        rcases hl : tupleAssignLoop itemVs (addl.getD fun x => .ok x) xs with ⟨xs', s⟩
        cases s with
        | error e => intro hret; cases hret
        | ok u' =>
          obtain ⟨⟩ := u'
          intro hret
          cases hret
          obtain ⟨hlen, hidx⟩ := tupleAssignLoop_ok _ _ _ _ hl
          exact ⟨rfl, rfl, xs', rfl, hlen, hidx⟩
  · rw [validate_arrayM]
    cases hm : mapExcept f xs with
    | error e => simp [hm]
    | ok result =>
      simp only [hm]
      cases hu : (if u2 then checkUniqueItems xs else .ok ()) with
      | error e => simp [hu]
      | ok u =>
        simp only [hu]
        by_cases h1 : minI > -1 ∧ (result.length : Int) < minI
        · rw [if_pos h1]
        · rw [if_neg h1]
          by_cases h2 : maxI > -1 ∧ (result.length : Int) > maxI
          · rw [if_pos h2]
          · rw [if_neg h2]
  · rw [validate_arrayM]
    cases hm : mapExcept f xs with
    | error e => simp [hm]
    | ok result =>
      simp only [hm]
      cases hu : (if u2 then checkUniqueItems xs else .ok ()) with
      | error e => simp [hu]
      | ok u =>
        simp only [hu]
        by_cases h1 : minI > -1 ∧ (result.length : Int) < minI
        · rw [if_pos h1]
        · rw [if_neg h1]
          by_cases h2 : maxI > -1 ∧ (result.length : Int) > maxI
          · rw [if_pos h2]
          · rw [if_neg h2]
            simp [Option.isNone]

/-- Concrete instance of the C10 theorem: the defaulting tuple
validator from the C5 scenario rewrites the slot holding null to x in
the argument object itself. -/
theorem c10_witness :
    (validate_tupleM (.arr [.null]) [fun v => .ok (_return_default v (.str "x"))]
        (some (fun x => .ok x)) false false).argAfter = .arr [.str "x"] :=
  ((c10_tuple_inplace_array_fresh [.null] [fun v => .ok (_return_default v (.str "x"))]
      (some (fun x => .ok x)) false false (fun x => .ok x) (-1) (-1) false false).1
    (.arr [.str "x"]) rfl).1

/-- Claim C9: composing a URI with a relative-path reference (no
leading hash, no scheme group in the partial-regex match, not an
absolute path) raises an uncaught IndexError whenever the last
segment of the base path has fewer than five characters and carries
no dot at index minus four: the file-name test indexes the segment at
minus four and, when that is not a dot, at minus five, without any
length guard. -/
theorem c9_uri_add_index_error (self : JsonUri) (other sp p : String)
    (frag? : Option String)
    (h1 : listBeginsWith other.toList ['#'] = false)
    (h2 : matchUriPieces other = (none, some p, frag?))
    (h3 : listBeginsWith p.toList ['/'] = false)
    (h4 : self.path = some sp)
    (h5 : ((strSplitOnSlash sp).getLast?.getD "").toList.length < 4 ∨
          (((strSplitOnSlash sp).getLast?.getD "").toList.length = 4 ∧
           charAtNeg ((strSplitOnSlash sp).getLast?.getD "") 4 ≠ some '.')) :
    jsonUriAdd self other = .error .indexError := by
  rw [jsonUriAdd, if_neg (by rw [h1]; simp), h2]
  dsimp only
  rw [if_neg (by rw [h3]; simp), h4]
  dsimp only
  rcases h5 with h5 | ⟨hlen, hne⟩
  · have hc : charAtNeg ((strSplitOnSlash sp).getLast?.getD "") 4 = none := by
      rw [charAtNeg]
      exact if_neg (by omega)
    rw [hc]
  · cases hc : charAtNeg ((strSplitOnSlash sp).getLast?.getD "") 4 with
    | none =>
      exfalso
      rw [charAtNeg, if_pos (by omega)] at hc
      rw [List.get?_eq_none] at hc
      omega
    | some c =>
      dsimp only
      have hcd : ¬ c = '.' := fun h => hne (by rw [hc, h])
      rw [if_neg hcd]
      have hc5 : charAtNeg ((strSplitOnSlash sp).getLast?.getD "") 5 = none := by
        rw [charAtNeg]
        exact if_neg (by omega)
      rw [hc5]

/-- Concrete instance of the C9 theorem: the example of the claim,
base file URI with path a/bc (last segment of length two) plus the
relative reference d. -/
theorem c9_witness :
    jsonUriAdd ⟨"file", some "a/bc", none⟩ "d" = .error .indexError :=
  c9_uri_add_index_error ⟨"file", some "a/bc", none⟩ "d" "a/bc" "d" none
    (by decide) (by decide) (by decide) rfl (Or.inl (by decide))

theorem isNormalList_mem (xs : List SNode) (h : isNormalList xs = true) :
    ∀ x ∈ xs, isNormal x = true := by
  induction xs with
  | nil => intro x hx; cases hx
  | cons y ys ih =>
    rw [isNormalList, Bool.and_eq_true] at h
    intro x hx
    rcases List.mem_cons.mp hx with rfl | hx'
    · exact h.1
    · exact ih h.2 x hx'

theorem isNormalPairs_mem (kvs : List (String × SNode)) (h : isNormalPairs kvs = true) :
    ∀ p ∈ kvs, isNormal p.2 = true := by
  induction kvs with
  | nil => intro p hp; cases hp
  | cons q rest ih =>
    rw [isNormalPairs, Bool.and_eq_true] at h
    intro p hp
    rcases List.mem_cons.mp hp with rfl | hp'
    · exact h.1
    · exact ih h.2 p hp'

theorem sizeOf_mem_arr (x : SNode) (xs : List SNode) (hx : x ∈ xs) :
    sizeOf x < sizeOf (SNode.arr xs) := by
  have := List.sizeOf_lt_of_mem hx
  simp only [SNode.arr.sizeOf_spec]
  omega

theorem sizeOf_mem_obj (p : String × SNode) (kvs : List (String × SNode)) (hp : p ∈ kvs) :
    sizeOf p.2 < sizeOf (SNode.obj kvs) := by
  have h1 := List.sizeOf_lt_of_mem hp
  have h2 : sizeOf p.2 < sizeOf p := by
    rcases p with ⟨a, b⟩
    simp only [Prod.mk.sizeOf_spec]
    omega
  simp only [SNode.obj.sizeOf_spec]
  omega

theorem lookupSNode_eraseKey (kvs : List (String × SNode)) (k : String) :
    lookupSNode (eraseKey kvs k) k = none := by
  induction kvs with
  | nil => rfl
  | cons p rest ih =>
    rw [eraseKey, List.filter_cons]
    by_cases hk : p.1 = k
    · simp only [hk]
      simpa [eraseKey] using ih
    · have : (decide (p.1 ≠ k)) = true := by simp [hk]
      rw [this]
      simp only [if_true]
      rw [lookupSNode]
      simp only [List.find?]
      have : (decide (p.1 = k)) = false := by simp [hk]
      rw [this]
      simpa [eraseKey, lookupSNode] using ih

theorem processList_id (selfId : JsonUri) (xs : List SNode)
    (h : ∀ x ∈ xs, ∀ (key : String) (path2 : List String) (anchors2 : List (String × String)),
      processNode selfId x key path2 anchors2 = .ok (x, anchors2)) :
    ∀ (i : Nat) (path : List String) (anchors : List (String × String)),
      processList selfId xs i path anchors = .ok (xs, anchors) := by
  induction xs with
  | nil => intro i path anchors; rfl
  | cons x rest ih =>
    intro i path anchors
    rw [processList]
    simp only [h x (List.mem_cons_self x rest),
               ih (fun y hy => h y (List.mem_cons_of_mem x hy))]

theorem processPairs_id (selfId : JsonUri) (kvs : List (String × SNode))
    (h : ∀ p ∈ kvs, ∀ (key : String) (path2 : List String) (anchors2 : List (String × String)),
      processNode selfId p.2 key path2 anchors2 = .ok (p.2, anchors2)) :
    ∀ (path : List String) (anchors : List (String × String)),
      processPairs selfId kvs [] path anchors = .ok (kvs, anchors) := by
  induction kvs with
  | nil => intro path anchors; rfl
  | cons p rest ih =>
    intro path anchors
    rcases p with ⟨k, v⟩
    rw [processPairs]
    have hc : (([] : List String).contains k) = false := rfl
    simp only [hc, Bool.false_eq_true, if_false,
               h ⟨k, v⟩ (List.mem_cons_self _ rest),
               ih (fun q hq => h q (List.mem_cons_of_mem _ hq))]

theorem processNode_obj_generic (selfId : JsonUri) (kvs : List (String × SNode))
    (key : String) (path : List String) (anchors : List (String × String))
    (h1 : lookupSNode kvs "$dynamicAnchor" = none)
    (h2 : lookupSNode kvs "$anchor" = none)
    (h3 : refLookup kvs "$ref" = none)
    (h4 : refLookup kvs "$dynamicRef" = none) :
    processNode selfId (.obj kvs) key path anchors =
      match processPairs selfId kvs [] (path ++ [key]) anchors with
      | .error e => .error e
      | .ok (kvs', a3) => .ok (.obj kvs', a3) := by
  rw [processNode]
  rw [h1, h2, h3, h4]

theorem processNode_normal_id (selfId : JsonUri) (n : SNode)
    (hn : isNormal n = true) :
    ∀ (key : String) (path : List String) (anchors : List (String × String)),
      processNode selfId n key path anchors = .ok (n, anchors) := by
  intro key path anchors
  match n with
  | .null | .bool _ | .int _ | .float _ | .str _ | .ref _ _ => rfl
  | .arr xs =>
    rw [processNode]
    rw [isNormal] at hn
    rw [processList_id selfId xs
      (fun x hx => processNode_normal_id selfId x (isNormalList_mem xs hn x hx))
      0 (path ++ [key]) anchors]
  | .obj kvs =>
    rw [isNormal] at hn
    simp only [Bool.and_eq_true] at hn
    obtain ⟨⟨⟨⟨hda, han⟩, hr⟩, hdr⟩, hp⟩ := hn
    rw [processNode_obj_generic selfId kvs key path anchors
      (Option.isNone_iff_eq_none.mp hda) (Option.isNone_iff_eq_none.mp han)
      (Option.isNone_iff_eq_none.mp hr) (Option.isNone_iff_eq_none.mp hdr)]
    rw [processPairs_id selfId kvs
      (fun p hpm => processNode_normal_id selfId p.2 (isNormalPairs_mem kvs hp p hpm))
      (path ++ [key]) anchors]
termination_by sizeOf n
decreasing_by
  · exact sizeOf_mem_arr x xs hx
  · exact sizeOf_mem_obj p kvs hpm

theorem lookupSNode_cons (k0 : String) (v0 : SNode) (rest : List (String × SNode)) (k : String) :
    lookupSNode ((k0, v0) :: rest) k = if k0 = k then some v0 else lookupSNode rest k := by
  by_cases h : k0 = k <;> simp [lookupSNode, List.find?, h]

theorem refBranch_shape (selfId : JsonUri) (r : String) (kvs : List (String × SNode))
    (sk cur : List String) (anch : List (String × String))
    (n' : SNode) (a' : List (String × String))
    (h : (match jsonUriAdd selfId r with
          | Except.error e => Except.error e
          | Except.ok target =>
            match processPairs selfId kvs sk cur anch with
            | Except.error e => Except.error e
            | Except.ok (ov, a3) => Except.ok (SNode.ref target ov, a3) :
            Except PyErr (SNode × List (String × String))) = Except.ok (n', a')) :
    ∃ t ov, n' = SNode.ref t ov := by
  cases hu : jsonUriAdd selfId r with
  | error e => rw [hu] at h; cases h
  | ok target =>
    rw [hu] at h
    cases hp : processPairs selfId kvs sk cur anch with
    | error e => rw [hp] at h; cases h
    | ok pr =>
      rcases pr with ⟨ov, a3⟩
      rw [hp] at h
      cases h
      exact ⟨target, ov, rfl⟩

theorem processPairs_ok_facts (selfId : JsonUri) (skip : List String)
    (kvs : List (String × SNode))
    (hrec : ∀ p ∈ kvs, ∀ (key : String) (path2 : List String)
      (anchors2 : List (String × String)) (v' : SNode) (b' : List (String × String)),
      processNode selfId p.2 key path2 anchors2 = .ok (v', b') →
      isNormal v' = true ∧ (∀ s, v' = .str s → p.2 = .str s)) :
    ∀ (path : List String) (anchors : List (String × String))
      (out : List (String × SNode)) (a' : List (String × String)),
      processPairs selfId kvs skip path anchors = .ok (out, a') →
      isNormalPairs out = true ∧
      (∀ k, (skip.contains k = true ∨ lookupSNode kvs k = none) → lookupSNode out k = none) ∧
      (∀ k v', lookupSNode out k = some v' →
        ∃ v, lookupSNode kvs k = some v ∧ (∀ s, v' = .str s → v = .str s)) := by
  induction kvs with
  | nil =>
    intro path anchors out a' h
    rw [processPairs] at h
    cases h
    refine ⟨rfl, fun k _ => rfl, fun k v' hv => ?_⟩
    cases hv
  | cons p rest ih =>
    intro path anchors out a' h
    rcases p with ⟨k0, v0⟩
    rw [processPairs] at h
    by_cases hsk : skip.contains k0 = true
    · rw [if_pos hsk] at h
      obtain ⟨n1, n2, n3⟩ :=
        ih (fun q hq => hrec q (List.mem_cons_of_mem _ hq)) path anchors out a' h
      refine ⟨n1, fun k hk => ?_, fun k v' hv => ?_⟩
      · refine n2 k ?_
        rcases hk with hk | hk
        · exact Or.inl hk
        · right
          rw [lookupSNode_cons] at hk
          by_cases he : k0 = k
          · rw [if_pos he] at hk; cases hk
          · rwa [if_neg he] at hk
      · by_cases he : k0 = k
        · exfalso
          subst he
          have hnone := n2 k0 (Or.inl hsk)
          rw [hnone] at hv
          cases hv
        · obtain ⟨v, hv2, hsh⟩ := n3 k v' hv
          exact ⟨v, by rw [lookupSNode_cons, if_neg he]; exact hv2, hsh⟩
    · rw [if_neg hsk] at h
      cases hpn : processNode selfId v0 k0 path anchors with
      | error e => rw [hpn] at h; cases h
      | ok pr1 =>
        rcases pr1 with ⟨v0', a1⟩
        rw [hpn] at h
        dsimp only at h
        cases hpp : processPairs selfId rest skip path a1 with
        | error e => rw [hpp] at h; cases h
        | ok pr2 =>
          rcases pr2 with ⟨rest', a2⟩
          rw [hpp] at h
          cases h
          obtain ⟨hN, hSh⟩ := hrec ⟨k0, v0⟩ (List.mem_cons_self _ _) k0 path anchors v0' a1 hpn
          obtain ⟨n1, n2, n3⟩ :=
            ih (fun q hq => hrec q (List.mem_cons_of_mem _ hq)) path a1 rest' _ hpp
          refine ⟨?_, fun k hk => ?_, fun k v' hv => ?_⟩
          · rw [isNormalPairs]; simp [hN, n1]
          · rw [lookupSNode_cons]
            by_cases he : k0 = k
            · exfalso
              rcases hk with hk | hk
              · subst he; exact hsk hk
              · subst he; rw [lookupSNode_cons, if_pos rfl] at hk; cases hk
            · rw [if_neg he]
              refine n2 k ?_
              rcases hk with hk | hk
              · exact Or.inl hk
              · right; rwa [lookupSNode_cons, if_neg he] at hk
          · rw [lookupSNode_cons] at hv
            by_cases he : k0 = k
            · rw [if_pos he] at hv
              cases hv
              exact ⟨v0, by rw [lookupSNode_cons, if_pos he], hSh⟩
            · rw [if_neg he] at hv
              obtain ⟨v, hv2, hsh⟩ := n3 k v' hv
              exact ⟨v, by rw [lookupSNode_cons, if_neg he]; exact hv2, hsh⟩

theorem refLookup_none_of (out kvs : List (String × SNode)) (k : String)
    (hpres : ∀ k2 v', lookupSNode out k2 = some v' →
      ∃ v, lookupSNode kvs k2 = some v ∧ (∀ s, v' = .str s → v = .str s))
    (hk : refLookup kvs k = none) :
    refLookup out k = none := by
  rw [refLookup]
  cases ho : lookupSNode out k with
  | none => rfl
  | some v' =>
    obtain ⟨v, hv, hshape⟩ := hpres k v' ho
    cases v' with
    | str s =>
      exfalso
      have hv' : v = .str s := hshape s rfl
      rw [refLookup, hv, hv'] at hk
      cases hk
    | null => rfl
    | bool b => rfl
    | int n => rfl
    | float q => rfl
    | arr xs => rfl
    | obj kvs2 => rfl
    | ref t ov => rfl

theorem genericBranch_normal (selfId : JsonUri) (kvs : List (String × SNode))
    (skip2 cur : List String) (anchors2 : List (String × String))
    (n' : SNode) (a' : List (String × String))
    (hrec : ∀ p ∈ kvs, ∀ (key : String) (path2 : List String)
      (anchors3 : List (String × String)) (v' : SNode) (b' : List (String × String)),
      processNode selfId p.2 key path2 anchors3 = .ok (v', b') →
      isNormal v' = true ∧ (∀ s, v' = .str s → p.2 = .str s))
    (hda : skip2.contains "$dynamicAnchor" = true ∨ lookupSNode kvs "$dynamicAnchor" = none)
    (han : skip2.contains "$anchor" = true ∨ lookupSNode kvs "$anchor" = none)
    (hr : refLookup kvs "$ref" = none)
    (hdr : refLookup kvs "$dynamicRef" = none)
    (h : (match processPairs selfId kvs skip2 cur anchors2 with
          | Except.error e => Except.error e
          | Except.ok (kvs', a3) => Except.ok (SNode.obj kvs', a3) :
          Except PyErr (SNode × List (String × String))) = Except.ok (n', a')) :
    isNormal n' = true ∧ ∃ out, n' = SNode.obj out := by
  cases hp : processPairs selfId kvs skip2 cur anchors2 with
  | error e => rw [hp] at h; cases h
  | ok pr =>
    rcases pr with ⟨out, a3⟩
    rw [hp] at h
    cases h
    obtain ⟨n1, n2, n3⟩ := processPairs_ok_facts selfId skip2 kvs hrec cur anchors2 out _ hp
    refine ⟨?_, out, rfl⟩
    rw [isNormal]
    simp only [Bool.and_eq_true]
    refine ⟨⟨⟨⟨?_, ?_⟩, ?_⟩, ?_⟩, n1⟩
    · rw [Option.isNone_iff_eq_none]; exact n2 _ hda
    · rw [Option.isNone_iff_eq_none]; exact n2 _ han
    · rw [Option.isNone_iff_eq_none]; exact refLookup_none_of out kvs _ n3 hr
    · rw [Option.isNone_iff_eq_none]; exact refLookup_none_of out kvs _ n3 hdr

theorem processList_ok_normal (selfId : JsonUri) (xs : List SNode)
    (hrec : ∀ x ∈ xs, ∀ (key : String) (path2 : List String)
      (anchors2 : List (String × String)) (x' : SNode) (b' : List (String × String)),
      processNode selfId x key path2 anchors2 = .ok (x', b') →
      isNormal x' = true ∧ (∀ s, x' = .str s → x = .str s)) :
    ∀ (i : Nat) (path : List String) (anchors : List (String × String))
      (out : List SNode) (a' : List (String × String)),
      processList selfId xs i path anchors = .ok (out, a') →
      isNormalList out = true := by
  induction xs with
  | nil => intro i path anchors out a' h; rw [processList] at h; cases h; rfl
  | cons x rest ih =>
    intro i path anchors out a' h
    rw [processList] at h
    cases hpn : processNode selfId x (toString i) path anchors with
    | error e => rw [hpn] at h; cases h
    | ok pr1 =>
      rcases pr1 with ⟨x', a1⟩
      rw [hpn] at h
      dsimp only at h
      cases hpl : processList selfId rest (i + 1) path a1 with
      | error e => rw [hpl] at h; cases h
      | ok pr2 =>
        rcases pr2 with ⟨rest', a2⟩
        rw [hpl] at h
        cases h
        obtain ⟨hN, _⟩ := hrec x (List.mem_cons_self _ _) (toString i) path anchors x' a1 hpn
        have hrest := ih (fun y hy => hrec y (List.mem_cons_of_mem _ hy)) (i + 1) path a1 rest' _ hpl
        rw [isNormalList]; simp [hN, hrest]

theorem processNode_ok_normal (selfId : JsonUri) (n : SNode) :
    ∀ (key : String) (path : List String) (anchors : List (String × String))
      (n' : SNode) (a' : List (String × String)),
      processNode selfId n key path anchors = .ok (n', a') →
      isNormal n' = true ∧ (∀ s, n' = .str s → n = .str s) := by
  intro key path anchors n' a' h
  match n with
  | .null | .bool _ | .int _ | .float _ | .str _ | .ref _ _ =>
    cases h
    exact ⟨rfl, fun _ hs => hs⟩
  | .arr xs =>
    cases hpl : processList selfId xs 0 (path ++ [key]) anchors with
    | error e => rw [processNode, hpl] at h; cases h
    | ok pr =>
      rcases pr with ⟨xs', a2⟩
      rw [processNode, hpl] at h
      cases h
      refine ⟨?_, fun s hs => by cases hs⟩
      rw [isNormal]
      exact processList_ok_normal selfId xs
        (fun x hx key2 p2 a3 x' b' hx' => processNode_ok_normal selfId x key2 p2 a3 x' b' hx')
        0 (path ++ [key]) anchors xs' _ hpl
  | .obj kvs =>
    rw [processNode] at h
    rcases hda : lookupSNode kvs "$dynamicAnchor" with _ | vda <;>
      rw [hda] at h <;>
      rcases han : lookupSNode kvs "$anchor" with _ | van <;>
        rw [han] at h <;>
        dsimp only at h <;>
    · rcases hr : refLookup kvs "$ref" with _ | r
      · rw [hr] at h
        dsimp only at h
        rcases hdr : refLookup kvs "$dynamicRef" with _ | r2
        · rw [hdr] at h
          dsimp only at h
          obtain ⟨hN, out, rfl⟩ := genericBranch_normal selfId kvs _ _ _ n' a'
            (fun p hp key2 p2 a3 v' b' hpv =>
              processNode_ok_normal selfId p.2 key2 p2 a3 v' b' hpv)
            (by first | exact Or.inr hda | exact Or.inl (by decide))
            (by first | exact Or.inr han | exact Or.inl (by decide))
            hr hdr h
          exact ⟨hN, fun s hs => by cases hs⟩
        · rw [hdr] at h
          dsimp only at h
          obtain ⟨t, ov, rfl⟩ := refBranch_shape selfId r2 kvs _ _ _ n' a' h
          exact ⟨rfl, fun s hs => by cases hs⟩
      · rw [hr] at h
        dsimp only at h
        obtain ⟨t, ov, rfl⟩ := refBranch_shape selfId r kvs _ _ _ n' a' h
        exact ⟨rfl, fun s hs => by cases hs⟩
termination_by sizeOf n
decreasing_by
all_goals first
  | exact sizeOf_mem_arr x xs hx
  | exact sizeOf_mem_obj p kvs hp

theorem pass2_of_pass1 (pid : JsonUri) (pdoc doc1 : List (String × SNode))
    (anchors1 : List (String × String))
    (hid : lookupSNode pdoc "$id" = none)
    (hpp : processPairs pid pdoc [] [] [] = .ok (doc1, anchors1)) :
    lookupSNode doc1 "$id" = none ∧
    loadDoc pid anchors1 doc1 = .ok (pid, doc1, anchors1) := by
  obtain ⟨n1, n2, n3⟩ := processPairs_ok_facts pid [] pdoc
    (fun p hp key p2 a2 v' b' hv => processNode_ok_normal pid p.2 key p2 a2 v' b' hv)
    [] [] doc1 anchors1 hpp
  have hid1 : lookupSNode doc1 "$id" = none := n2 "$id" (Or.inr hid)
  refine ⟨hid1, ?_⟩
  rw [loadDoc, hid1]
  dsimp only
  rw [processPairs_id pid doc1
    (fun p hp key p2 a2 =>
      processNode_normal_id pid p.2 (isNormalPairs_mem doc1 n1 p hp) key p2 a2)
    [] anchors1]

/-- Claim C8: the normalization pass is idempotent.  If loading a raw
document with a fresh state succeeds — yielding the adopted base URI,
the normalized tree and the anchor table — then re-running the load on
that normalized tree, with that URI and that anchor table as the
state, returns exactly the same URI, tree and table: the root no
longer carries an $id key, anchor keys were stripped, string-valued
$ref/$dynamicRef mappings became reference handles that the second
pass returns unaltered, and no anchor is re-recorded. -/
theorem c8_normalizer_idempotent (id0 id1 : JsonUri) (doc doc1 : List (String × SNode))
    (anchors1 : List (String × String))
    (h : loadDoc id0 [] doc = .ok (id1, doc1, anchors1)) :
    lookupSNode doc1 "$id" = none ∧
    loadDoc id1 anchors1 doc1 = .ok (id1, doc1, anchors1) := by
  rw [loadDoc] at h
  cases hid : lookupSNode doc "$id" with
  | none =>
    rw [hid] at h
    dsimp only at h
    cases hpp : processPairs id0 doc [] [] [] with
    | error e => rw [hpp] at h; cases h
    | ok pr =>
      rcases pr with ⟨doc2, a1⟩
      rw [hpp] at h
      cases h
      exact pass2_of_pass1 id0 doc _ _ hid hpp
  | some v =>
    cases v with
    | str s =>
      rw [hid] at h
      dsimp only at h
      cases hup : jsonUriParse s with
      | error e => rw [hup] at h; cases h
      | ok u =>
        rw [hup] at h
        try dsimp only at h
        cases hfr : u.fragment.isSome with
        | true => rw [hfr] at h; cases h
        | false =>
          rw [hfr] at h
          simp only [Bool.false_eq_true, if_false] at h
          cases hpp : processPairs u (eraseKey doc "$id") [] [] [] with
          | error e => rw [hpp] at h; cases h
          | ok pr =>
            rcases pr with ⟨doc2, a1⟩
            rw [hpp] at h
            cases h
            exact pass2_of_pass1 _ (eraseKey doc "$id") _ _
              (lookupSNode_eraseKey doc "$id") hpp
    | null => rw [hid] at h; cases h
    | bool b => rw [hid] at h; cases h
    | int n => rw [hid] at h; cases h
    | float q => rw [hid] at h; cases h
    | arr xs => rw [hid] at h; cases h
    | obj kvs2 => rw [hid] at h; cases h
    | ref t ov => rw [hid] at h; cases h

/-- Part of claim C8 is false on the code: only the root mapping has
its $id handled — _process_node never looks at $id — so a normalized
document can still contain an $id key in a nested mapping.  Here the
nested mapping keeps its $id verbatim through a successful pass (and
the pass is still a no-op on it, as the main theorem shows). -/
theorem c8_counterexample :
    loadDoc ⟨"self", some "root", none⟩ []
        [("a", .obj [("$id", .str "self://b")])]
      = .ok (⟨"self", some "root", none⟩,
             [("a", .obj [("$id", .str "self://b")])], []) ∧
    lookupSNode [("$id", SNode.str "self://b")] "$id" = some (.str "self://b") :=
  ⟨rfl, rfl⟩

/-- Concrete instance of the C8 theorem: a document with a root $id
and an anchored child normalizes to an $id-free tree with the anchor
recorded, and the second pass reproduces it unchanged. -/
theorem c8_witness :
    lookupSNode [("x", SNode.obj [("t", SNode.int 1)])] "$id" = none ∧
    loadDoc ⟨"self", some "a", none⟩ [("#n", "#/x")]
        [("x", .obj [("t", .int 1)])]
      = .ok (⟨"self", some "a", none⟩, [("x", .obj [("t", .int 1)])], [("#n", "#/x")]) :=
  c8_normalizer_idempotent ⟨"self", some "root", none⟩ ⟨"self", some "a", none⟩
    [("$id", .str "self://a"), ("x", .obj [("$anchor", .str "n"), ("t", .int 1)])]
    [("x", .obj [("t", .int 1)])] [("#n", "#/x")] rfl

end Opyapi
